import Mathlib

/-!
Shallow embedding of the crates.io registry core (`src/krate.rs`):
crate creation / upsert, ownership rows, download accounting, search
ordering, name validation, and the owner-modification endpoint.

Database tables are modelled as Lean lists of row structures; SQL
statements become explicit list transformations.  External collaborators
(URL parser, license-expression validator, the `canon_crate_name` SQL
function) are parameters, mirroring the source's treatment of them as
black boxes.
-/

namespace Registry

/-- Result of `Url::parse` as consumed by `validate_url` in `krate.rs`:
only the scheme and the `cannot_be_a_base` flag are inspected. -/
structure UrlParts where
  scheme : String
  cannotBeABase : Bool
deriving DecidableEq

/-- External collaborators of `krate.rs`: the `url` crate's parser, the
`license_exprs` validator, and the `canon_crate_name` SQL function
(defined in a database migration, not in `src/`; per the spec it is a
pure normalization used for every uniqueness check). -/
structure Ext where
  parseUrl : String → Option UrlParts
  validLicenseExpr : String → Bool
  canon : String → String

/-- The `crates` table row (struct `Crate` in `krate.rs`); timestamps are
omitted as no claim mentions them. -/
structure Crate where
  id : Nat
  name : String
  downloads : Int
  description : Option String
  homepage : Option String
  documentation : Option String
  readme : Option String
  license : Option String
  repository : Option String
  max_upload_size : Option Int
deriving DecidableEq

/-- Owner kind discriminant (`OwnerKind` in `owner.rs`, used by
`krate.rs` as `OwnerKind::User as i32` / `OwnerKind::Team as i32`). -/
inductive OwnerKind where
  | user
  | team
deriving DecidableEq

/-- The `crate_owners` table row (`CrateOwner`), with its soft-delete
flag. -/
structure CrateOwner where
  crate_id : Nat
  owner_id : Int
  created_by : Int
  owner_kind : OwnerKind
  deleted : Bool
deriving DecidableEq

/-- Struct `NewCrate` in `krate.rs`: the insertable / changeset form of
a crate. -/
structure NewCrate where
  name : String
  description : Option String
  homepage : Option String
  documentation : Option String
  readme : Option String
  repository : Option String
  license : Option String
  max_upload_size : Option Int
deriving DecidableEq

/-- The database state touched by crate creation. -/
structure Db where
  crates : List Crate
  crate_owners : List CrateOwner
  reserved_names : List String
  next_id : Nat
deriving DecidableEq

/-- `validate_url` in `krate.rs`: absent URLs pass; present ones must
parse, have scheme `http` or `https`, and not be opaque. -/
def validate_url (ext : Ext) (url : Option String) (field : String) :
    Except String Unit :=
  match url with
  | none => .ok ()
  | some s =>
    match ext.parseUrl s with
    | none => .error (field ++ " is not a valid url")
    | some u =>
      if u.scheme = "http" ∨ u.scheme = "https" then
        if u.cannotBeABase then
          .error (field ++ " must have relative scheme data")
        else
          .ok ()
      else
        .error (field ++ " has an invalid url scheme")

/-- `NewCrate::validate_license`: a supplied license is split on `/` and
each fragment validated independently; with no license but a
license-file flag, the license becomes the sentinel `"non-standard"`.
Returns the resulting license field (the source mutates `self.license`). -/
def validate_license (ext : Ext) (license : Option String)
    (license_file : Option String) : Except String (Option String) :=
  match license with
  | some l =>
    if (l.splitOn "/").all ext.validLicenseExpr then .ok (some l)
    else .error "invalid license expression"
  | none =>
    if license_file.isSome then .ok (some "non-standard")
    else .ok none

/-- `NewCrate::validate`: URL checks on homepage, documentation and
repository, then the license check (which may rewrite the license). -/
def NewCrate.validate (ext : Ext) (nc : NewCrate)
    (license_file : Option String) : Except String NewCrate :=
  match validate_url ext nc.homepage "homepage" with
  | .error e => .error e
  | .ok () =>
    match validate_url ext nc.documentation "documentation" with
    | .error e => .error e
    | .ok () =>
      match validate_url ext nc.repository "repository" with
      | .error e => .error e
      | .ok () =>
        match validate_license ext nc.license license_file with
        | .error e => .error e
        | .ok lic => .ok { nc with license := lic }

/-- The exists-query over `reserved_crate_names` comparing canonical
names. -/
def reservedClash (ext : Ext) (names : List String) (name : String) :
    Bool :=
  names.any (fun r => ext.canon r = ext.canon name)

/-- `NewCrate::ensure_name_not_reserved`: reject when the canonical
name matches a reserved name. -/
def ensure_name_not_reserved (ext : Ext) (db : Db) (nc : NewCrate) :
    Except String Unit :=
  if reservedClash ext db.reserved_names nc.name then
    .error "cannot upload a crate with a reserved name"
  else
    .ok ()

/-- Modelled from the spec: the uniqueness constraint on `crates` that
triggers `on_conflict_do_nothing` is on the canonical name ("canonical
name is unique across all crates"); the index itself lives in a
database migration, not under `src/`. -/
def canonClash (ext : Ext) (crates : List Crate) (name : String) : Bool :=
  crates.any (fun c => ext.canon c.name = ext.canon name)

/-- The crate row returned by the conditional insert (`RETURNING *`):
fields from the `NewCrate`, a fresh id, zero downloads. -/
def insertedCrate (db : Db) (nc : NewCrate) : Crate :=
  { id := db.next_id, name := nc.name, downloads := 0,
    description := nc.description, homepage := nc.homepage,
    documentation := nc.documentation, readme := nc.readme,
    license := nc.license, repository := nc.repository,
    max_upload_size := nc.max_upload_size }

/-- The first `CrateOwner` grant written by `save_new_crate`: the
uploading user, recorded as both owner and grant creator. -/
def firstOwnerRow (db : Db) (user_id : Int) : CrateOwner :=
  { crate_id := db.next_id, owner_id := user_id, created_by := user_id,
    owner_kind := OwnerKind.user, deleted := false }

/-- State after a successful conditional insert: the crate row plus the
first owner grant. -/
def insertDb (db : Db) (nc : NewCrate) (user_id : Int) : Db :=
  { db with crates := db.crates ++ [insertedCrate db nc],
            crate_owners := db.crate_owners ++ [firstOwnerRow db user_id],
            next_id := db.next_id + 1 }

/-- `NewCrate::save_new_crate`: conditional insert
(`on_conflict_do_nothing`); when the row is inserted, the first
`CrateOwner` grant for the uploader is written in the same transaction.
Returns the inserted crate (or `none` when the insert was absorbed)
plus the new state. -/
def save_new_crate (ext : Ext) (db : Db) (nc : NewCrate) (user_id : Int) :
    Option Crate × Db :=
  if canonClash ext db.crates nc.name then
    (none, db)
  else
    (some (insertedCrate db nc), insertDb db nc user_id)

/-- The diesel `AsChangeset` for `NewCrate` applied by the fallback
update: `name` and `max_upload_size` are skipped (the
`#[primary_key(name, max_upload_size)]` trick), and `None` option
fields leave the column unchanged. -/
def applyChangeset (nc : NewCrate) (c : Crate) : Crate :=
  { c with
    description := match nc.description with
      | some v => some v | none => c.description,
    homepage := match nc.homepage with
      | some v => some v | none => c.homepage,
    documentation := match nc.documentation with
      | some v => some v | none => c.documentation,
    readme := match nc.readme with
      | some v => some v | none => c.readme,
    repository := match nc.repository with
      | some v => some v | none => c.repository,
    license := match nc.license with
      | some v => some v | none => c.license }

/-- `NewCrate::create_or_update`: validate, reject reserved names, then
inside one transaction try the conditional insert first and fall back to
an update keyed by canonical name.  The state component of the result is
the database after the call (unchanged when the call errors, matching
transaction rollback). -/
def create_or_update (ext : Ext) (db : Db) (nc0 : NewCrate)
    (license_file : Option String) (uploader : Int) :
    Db × Except String Crate :=
  match NewCrate.validate ext nc0 license_file with
  | .error e => (db, .error e)
  | .ok nc =>
    match ensure_name_not_reserved ext db nc with
    | .error e => (db, .error e)
    | .ok () =>
      match save_new_crate ext db nc uploader with
      | (some k, db2) => (db2, .ok k)
      | (none, _) =>
        match db.crates.find? (fun c => ext.canon c.name = ext.canon nc.name) with
        | none => (db, .error "record not found")
        | some c =>
          ({ db with crates := db.crates.map (fun c2 =>
                if ext.canon c2.name = ext.canon nc.name then
                  applyChangeset nc c2
                else c2) },
           .ok (applyChangeset nc c))

/-- Rust's `char::is_ascii`: the code point is at most `0x7F`. -/
def charIsAscii (c : Char) : Bool := decide (c.toNat ≤ 127)

/-- `Crate::valid_name`, parametric in the Unicode character classifiers
used by Rust (`char::is_alphabetic`, `char::is_alphanumeric`): nonempty,
first char alphabetic, all chars alphanumeric or `_` or `-`, all chars
ASCII. -/
def valid_name (uAlpha uAlnum : Char → Bool) (name : List Char) : Bool :=
  match name with
  | [] => false
  | c :: _ =>
    uAlpha c &&
      name.all (fun d => uAlnum d || d = '_' || d = '-') &&
      name.all (fun d => charIsAscii d)

/-- The spec's wording of name validity, for comparison with
`valid_name`: non-empty, first character alphabetic, every character an
ASCII alphanumeric, `_` or `-`.  (`Char.isAlpha` / `Char.isAlphanum`
are the ASCII classifiers.) -/
def spec_valid_name (name : List Char) : Bool :=
  match name with
  | [] => false
  | c :: _ =>
    c.isAlpha && name.all (fun d => d.isAlphanum || d = '_' || d = '-')

/-- The `version_downloads` table row. -/
structure VersionDownload where
  version_id : Int
  date : Int
  downloads : Int
deriving DecidableEq

/-- The WHERE clause of the download-count UPDATE: same version, same
calendar day. -/
def dlHit (vid day : Int) (r : VersionDownload) : Bool :=
  decide (r.version_id = vid ∧ r.date = day)

/-- Effect of the UPDATE on one row: add one to a matching row's
counter. -/
def bumpRow (vid day : Int) (r : VersionDownload) : VersionDownload :=
  if dlHit vid day r then { r with downloads := r.downloads + 1 } else r

/-- Modelled from the spec: the row written by
`INSERT INTO version_downloads (version_id) VALUES ($1)` — the source
supplies only `version_id`; the spec says the new counter row is
"initialized to one" on the current day, the column defaults living in
the schema, which is not under `src/`. -/
def freshDownloadRow (vid day : Int) : VersionDownload :=
  { version_id := vid, date := day, downloads := 1 }

/-- `increment_download_counts` in `krate.rs`, after the
(crate, version) pair is resolved: run the UPDATE adding one to today's
row; if it affected zero rows, insert a fresh row. -/
def increment_download_counts (rows : List VersionDownload)
    (vid day : Int) : List VersionDownload :=
  if rows.countP (dlHit vid day) = 0 then
    rows.map (bumpRow vid day) ++ [freshDownloadRow vid day]
  else
    rows.map (bumpRow vid day)

lemma map_bumpRow_of_no_hit {rows : List VersionDownload} {vid day : Int}
    (h : ∀ r ∈ rows, ¬ dlHit vid day r = true) :
    rows.map (bumpRow vid day) = rows := by
  rw [show rows.map (bumpRow vid day) = rows.map id from
      List.map_congr_left (fun r hr => by
        simp [bumpRow, Bool.eq_false_iff.mpr (h r hr)]),
    List.map_id]

lemma isAlphanum_charIsAscii (c : Char) (h : c.isAlphanum = true) :
    charIsAscii c = true := by
  simp only [Char.isAlphanum, Char.isAlpha, Char.isUpper, Char.isLower,
    Char.isDigit, Bool.or_eq_true, Bool.and_eq_true, decide_eq_true_eq] at h
  unfold charIsAscii
  rcases h with (⟨h1, h2⟩ | ⟨h1, h2⟩) | ⟨h1, h2⟩ <;>
    · rw [UInt32.le_def] at h2
      exact decide_eq_true (le_trans h2 (by decide))

/-- C9: `Crate::valid_name` agrees with the spec predicate (non-empty,
alphabetic first character, every character ASCII alphanumeric, `_` or
`-`) for any Unicode classifiers that agree with the ASCII ones on
ASCII characters — as Rust's `char::is_alphabetic` /
`char::is_alphanumeric` do; in particular the empty string and any
string containing a non-ASCII character are rejected. -/
theorem valid_name_iff_spec (uAlpha uAlnum : Char → Bool) (name : List Char)
    (hA : ∀ c, charIsAscii c = true → uAlpha c = c.isAlpha)
    (hN : ∀ c, charIsAscii c = true → uAlnum c = c.isAlphanum) :
    valid_name uAlpha uAlnum name = spec_valid_name name ∧
    valid_name uAlpha uAlnum [] = false ∧
    (∀ d ∈ name, charIsAscii d = false →
      valid_name uAlpha uAlnum name = false) := by
  refine ⟨?_, rfl, ?_⟩
  · cases name with
    | nil => rfl
    | cons c rest =>
      rw [Bool.eq_iff_iff]
      simp only [valid_name, spec_valid_name, Bool.and_eq_true,
        List.all_eq_true, Bool.or_eq_true, decide_eq_true_eq]
      constructor
      · rintro ⟨⟨ha, hall⟩, hascii⟩
        have hcA : charIsAscii c = true := hascii c (List.mem_cons_self c rest)
        refine ⟨by rw [← hA c hcA]; exact ha, fun d hd => ?_⟩
        rcases hall d hd with (h1 | h2) | h3
        · exact Or.inl (Or.inl (by rw [← hN d (hascii d hd)]; exact h1))
        · exact Or.inl (Or.inr h2)
        · exact Or.inr h3
      · rintro ⟨ha, hall⟩
        have hascii : ∀ d ∈ c :: rest, charIsAscii d = true := by
          intro d hd
          rcases hall d hd with (h1 | h2) | h3
          · exact isAlphanum_charIsAscii d h1
          · rw [h2]; decide
          · rw [h3]; decide
        have hcA : charIsAscii c = true := hascii c (List.mem_cons_self c rest)
        refine ⟨⟨by rw [hA c hcA]; exact ha, fun d hd => ?_⟩, hascii⟩
        rcases hall d hd with (h1 | h2) | h3
        · exact Or.inl (Or.inl (by rw [hN d (hascii d hd)]; exact h1))
        · exact Or.inl (Or.inr h2)
        · exact Or.inr h3
  · intro d hd hda
    cases name with
    | nil => rfl
    | cons c rest =>
      have : (c :: rest).all (fun d => charIsAscii d) = false := by
        rw [List.all_eq_false]
        exact ⟨d, hd, by rw [hda]; decide⟩
      simp [valid_name, this]

/-- Witness for `valid_name_iff_spec` at the ASCII classifiers and a
concrete name. -/
theorem valid_name_iff_spec_witness :
    valid_name Char.isAlpha Char.isAlphanum "serde_json-1".toList
      = spec_valid_name "serde_json-1".toList :=
  (valid_name_iff_spec Char.isAlpha Char.isAlphanum "serde_json-1".toList
    (fun _ _ => rfl) (fun _ _ => rfl)).1

/-- C5: two download increments on the same day for the same version
leave exactly one day-row, with counter 2; one increment on day `d` and
one on day `d + 1` leave two distinct day-rows, each with counter 1. -/
theorem increment_download_counts_day_rows
    (rows : List VersionDownload) (vid d : Int)
    (h0 : rows.countP (dlHit vid d) = 0)
    (h1 : rows.countP (dlHit vid (d + 1)) = 0) :
    (increment_download_counts
        (increment_download_counts rows vid d) vid d).filter (dlHit vid d)
      = [⟨vid, d, 2⟩] ∧
    (increment_download_counts
        (increment_download_counts rows vid d) vid (d + 1)).filter (dlHit vid d)
      = [⟨vid, d, 1⟩] ∧
    (increment_download_counts
        (increment_download_counts rows vid d) vid (d + 1)).filter (dlHit vid (d + 1))
      = [⟨vid, d + 1, 1⟩] := by
  have hnohit : ∀ r ∈ rows, ¬ dlHit vid d r = true := List.countP_eq_zero.mp h0
  have hnohit1 : ∀ r ∈ rows, ¬ dlHit vid (d + 1) r = true :=
    List.countP_eq_zero.mp h1
  have hfilter0 : rows.filter (dlHit vid d) = [] :=
    List.filter_eq_nil_iff.mpr hnohit
  have hfilter1 : rows.filter (dlHit vid (d + 1)) = [] :=
    List.filter_eq_nil_iff.mpr hnohit1
  have hhit : dlHit vid d (freshDownloadRow vid d) = true := by
    simp [dlHit, freshDownloadRow]
  have hmiss : dlHit vid (d + 1) (freshDownloadRow vid d) = false := by
    simp [dlHit, freshDownloadRow]
  have step1 : increment_download_counts rows vid d
      = rows ++ [freshDownloadRow vid d] := by
    unfold increment_download_counts
    rw [if_pos h0, map_bumpRow_of_no_hit hnohit]
  have cnt2 : (rows ++ [freshDownloadRow vid d]).countP (dlHit vid d) = 1 := by
    rw [List.countP_append, h0]
    simp [List.countP_cons, hhit]
  have cnt3 : (rows ++ [freshDownloadRow vid d]).countP (dlHit vid (d + 1)) = 0 := by
    rw [List.countP_append, h1]
    simp [List.countP_cons, hmiss]
  refine ⟨?_, ?_, ?_⟩
  · rw [step1]
    unfold increment_download_counts
    rw [if_neg (by rw [cnt2]; exact one_ne_zero), List.map_append,
      map_bumpRow_of_no_hit hnohit, List.filter_append, hfilter0]
    simp [bumpRow, hhit, freshDownloadRow, dlHit]
  · rw [step1]
    unfold increment_download_counts
    rw [if_pos cnt3, List.map_append, map_bumpRow_of_no_hit hnohit1,
      List.filter_append, List.filter_append, hfilter0]
    simp [bumpRow, hmiss, freshDownloadRow, dlHit]
  · rw [step1]
    unfold increment_download_counts
    rw [if_pos cnt3, List.map_append, map_bumpRow_of_no_hit hnohit1,
      List.filter_append, List.filter_append, hfilter1]
    simp [bumpRow, hmiss, freshDownloadRow, dlHit]

/-- Witness for `increment_download_counts_day_rows` starting from an
empty `version_downloads` table. -/
theorem increment_download_counts_day_rows_witness :
    ([] : List VersionDownload).countP (dlHit 7 0) = 0 ∧
    (increment_download_counts
        (increment_download_counts [] 7 0) 7 0).filter (dlHit 7 0)
      = [⟨7, 0, 2⟩] :=
  ⟨rfl, (increment_download_counts_day_rows [] 7 0 rfl rfl).1⟩

/-- WHERE clause shared by the `owner_add` UPDATE/INSERT and the
`owner_remove` UPDATE: same crate, same owner, same owner kind. -/
def ownerHit (cid : Nat) (oid : Int) (k : OwnerKind) (r : CrateOwner) : Bool :=
  decide (r.crate_id = cid ∧ r.owner_id = oid ∧ r.owner_kind = k)

/-- Modelled from the spec: the row written by `owner_add`'s INSERT,
which supplies only `(crate_id, owner_id, created_by, owner_kind)`; the
`deleted = false` column default lives in the schema, not under `src/`
(the spec's invariant talks of the fresh row as a live grant). -/
def freshOwnerRow (cid : Nat) (oid : Int) (k : OwnerKind) (req : Int) :
    CrateOwner :=
  { crate_id := cid, owner_id := oid, created_by := req,
    owner_kind := k, deleted := false }

/-- Effect of `owner_add`'s UPDATE on one row: flip `deleted` back to
false on a match. -/
def unDeleteRow (cid : Nat) (oid : Int) (k : OwnerKind) (r : CrateOwner) :
    CrateOwner :=
  if ownerHit cid oid k r then { r with deleted := false } else r

/-- Effect of `owner_remove`'s UPDATE on one row: set `deleted` to true
on a match. -/
def softDeleteRow (cid : Nat) (oid : Int) (k : OwnerKind) (r : CrateOwner) :
    CrateOwner :=
  if ownerHit cid oid k r then { r with deleted := true } else r

/-- `Crate::owner_add` after login resolution: first run the un-delete
UPDATE; only when it affected zero rows insert a fresh row. -/
def owner_add_rows (rows : List CrateOwner) (cid : Nat) (oid : Int)
    (k : OwnerKind) (req : Int) : List CrateOwner :=
  if rows.countP (ownerHit cid oid k) = 0 then
    rows.map (unDeleteRow cid oid k) ++ [freshOwnerRow cid oid k req]
  else
    rows.map (unDeleteRow cid oid k)

/-- `Crate::owner_remove` after login resolution: set `deleted = true`;
the row itself is never removed. -/
def owner_remove_rows (rows : List CrateOwner) (cid : Nat) (oid : Int)
    (k : OwnerKind) : List CrateOwner :=
  rows.map (softDeleteRow cid oid k)

/-- A step of the ownership engine: one `owner_add` or `owner_remove`
call (already resolved to an owner id and kind). -/
inductive OwnerOp where
  | add (cid : Nat) (oid : Int) (k : OwnerKind) (req : Int)
  | remove (cid : Nat) (oid : Int) (k : OwnerKind)

def applyOwnerOp (rows : List CrateOwner) : OwnerOp → List CrateOwner
  | OwnerOp.add cid oid k req => owner_add_rows rows cid oid k req
  | OwnerOp.remove cid oid k => owner_remove_rows rows cid oid k

def runOwnerOps (rows : List CrateOwner) (ops : List OwnerOp) :
    List CrateOwner :=
  ops.foldl applyOwnerOp rows

/-- Number of `crate_owners` rows (deleted or not) for one
(crate, owner, kind) triple. -/
def rowCount (rows : List CrateOwner) (cid : Nat) (oid : Int)
    (k : OwnerKind) : Nat :=
  rows.countP (ownerHit cid oid k)

/-- Number of non-deleted `crate_owners` rows for one
(crate, owner, kind) triple. -/
def liveCount (rows : List CrateOwner) (cid : Nat) (oid : Int)
    (k : OwnerKind) : Nat :=
  rows.countP (fun r => ownerHit cid oid k r && !r.deleted)

lemma ownerHit_unDeleteRow (cid2 : Nat) (oid2 : Int) (k2 : OwnerKind)
    (cid : Nat) (oid : Int) (k : OwnerKind) (r : CrateOwner) :
    ownerHit cid2 oid2 k2 (unDeleteRow cid oid k r)
      = ownerHit cid2 oid2 k2 r := by
  unfold unDeleteRow
  cases h : ownerHit cid oid k r <;> simp [h, ownerHit]

lemma ownerHit_softDeleteRow (cid2 : Nat) (oid2 : Int) (k2 : OwnerKind)
    (cid : Nat) (oid : Int) (k : OwnerKind) (r : CrateOwner) :
    ownerHit cid2 oid2 k2 (softDeleteRow cid oid k r)
      = ownerHit cid2 oid2 k2 r := by
  unfold softDeleteRow
  cases h : ownerHit cid oid k r <;> simp [h, ownerHit]

lemma rowCount_map_unDelete (rows : List CrateOwner) (cid : Nat) (oid : Int)
    (k : OwnerKind) (cid2 : Nat) (oid2 : Int) (k2 : OwnerKind) :
    rowCount (rows.map (unDeleteRow cid oid k)) cid2 oid2 k2
      = rowCount rows cid2 oid2 k2 := by
  unfold rowCount
  rw [List.countP_map]
  apply List.countP_congr
  intro r _
  simp [Function.comp_apply, ownerHit_unDeleteRow]

lemma rowCount_map_softDelete (rows : List CrateOwner) (cid : Nat)
    (oid : Int) (k : OwnerKind) (cid2 : Nat) (oid2 : Int) (k2 : OwnerKind) :
    rowCount (rows.map (softDeleteRow cid oid k)) cid2 oid2 k2
      = rowCount rows cid2 oid2 k2 := by
  unfold rowCount
  rw [List.countP_map]
  apply List.countP_congr
  intro r _
  simp [Function.comp_apply, ownerHit_softDeleteRow]

lemma uniq_applyOwnerOp (rows : List CrateOwner) (op : OwnerOp)
    (h : ∀ cid oid k, rowCount rows cid oid k ≤ 1) :
    ∀ cid oid k, rowCount (applyOwnerOp rows op) cid oid k ≤ 1 := by
  cases op with
  | add cid oid k req =>
    intro cid2 oid2 k2
    show rowCount (owner_add_rows rows cid oid k req) cid2 oid2 k2 ≤ 1
    unfold owner_add_rows
    by_cases h0 : rows.countP (ownerHit cid oid k) = 0
    · rw [if_pos h0]
      unfold rowCount
      rw [List.countP_append]
      cases hf : ownerHit cid2 oid2 k2 (freshOwnerRow cid oid k req) with
      | true =>
        have := of_decide_eq_true hf
        obtain ⟨e1, e2, e3⟩ : cid = cid2 ∧ oid = oid2 ∧ k = k2 := this
        subst e1; subst e2; subst e3
        have hz : (rows.map (unDeleteRow cid oid k)).countP
            (ownerHit cid oid k) = 0 := by
          have := rowCount_map_unDelete rows cid oid k cid oid k
          unfold rowCount at this
          rw [this, h0]
        rw [hz]
        simp [List.countP_cons, hf]
      | false =>
        have hone : ([freshOwnerRow cid oid k req]).countP
            (ownerHit cid2 oid2 k2) = 0 := by
          simp [List.countP_cons, hf]
        rw [hone]
        have := rowCount_map_unDelete rows cid oid k cid2 oid2 k2
        unfold rowCount at this
        rw [this]
        simpa using h cid2 oid2 k2
    · rw [if_neg h0]
      have := rowCount_map_unDelete rows cid oid k cid2 oid2 k2
      unfold rowCount at this ⊢
      rw [this]
      exact h cid2 oid2 k2
  | remove cid oid k =>
    intro cid2 oid2 k2
    show rowCount (owner_remove_rows rows cid oid k) cid2 oid2 k2 ≤ 1
    unfold owner_remove_rows
    have := rowCount_map_softDelete rows cid oid k cid2 oid2 k2
    unfold rowCount at this ⊢
    rw [this]
    exact h cid2 oid2 k2

lemma uniq_runOwnerOps (ops : List OwnerOp) :
    ∀ rows : List CrateOwner,
      (∀ cid oid k, rowCount rows cid oid k ≤ 1) →
      ∀ cid oid k, rowCount (runOwnerOps rows ops) cid oid k ≤ 1 := by
  induction ops with
  | nil => intro rows h; exact h
  | cons op rest ih =>
    intro rows h
    have : runOwnerOps rows (op :: rest)
        = runOwnerOps (applyOwnerOp rows op) rest := rfl
    rw [this]
    exact ih _ (uniq_applyOwnerOp rows op h)

/-- C3: starting from any state with at most one `crate_owners` row per
(crate, owner, kind) triple, any sequence of `owner_add` /
`owner_remove` calls maintains at most one non-deleted row per triple;
and `owner_remove` never deletes a row (it only flips the soft-delete
flag, preserving the table's length). -/
theorem owner_rows_at_most_one_live (rows : List CrateOwner)
    (ops : List OwnerOp)
    (h : ∀ cid oid k, rowCount rows cid oid k ≤ 1) :
    (∀ cid oid k, liveCount (runOwnerOps rows ops) cid oid k ≤ 1) ∧
    (∀ (rows2 : List CrateOwner) (cid : Nat) (oid : Int) (k : OwnerKind),
      (owner_remove_rows rows2 cid oid k).length = rows2.length) := by
  constructor
  · intro cid oid k
    have hle : liveCount (runOwnerOps rows ops) cid oid k
        ≤ rowCount (runOwnerOps rows ops) cid oid k := by
      unfold liveCount rowCount
      apply List.countP_mono_left
      intro r _ hr
      exact (Bool.and_eq_true _ _ ▸ hr).1
    exact le_trans hle (uniq_runOwnerOps ops rows h cid oid k)
  · intro rows2 cid oid k
    unfold owner_remove_rows
    exact List.length_map rows2 (softDeleteRow cid oid k)

/-- Witness for `owner_rows_at_most_one_live`: an add / remove / re-add
cycle starting from an empty owner table. -/
theorem owner_rows_at_most_one_live_witness :
    liveCount
        (runOwnerOps []
          [OwnerOp.add 1 2 OwnerKind.user 2,
           OwnerOp.remove 1 2 OwnerKind.user,
           OwnerOp.add 1 2 OwnerKind.user 3])
        1 2 OwnerKind.user ≤ 1 :=
  (owner_rows_at_most_one_live []
      [OwnerOp.add 1 2 OwnerKind.user 2,
       OwnerOp.remove 1 2 OwnerKind.user,
       OwnerOp.add 1 2 OwnerKind.user 3]
      (fun _ _ _ => Nat.zero_le 1)).1 1 2 OwnerKind.user

/-- Modelled from the spec: the `Rights` enum is declared in `owner.rs`
(not under `src/`); the spec gives the ordered levels
`None < Publish < Full` (`Full` = direct user ownership, `Publish` =
team membership). -/
inductive Rights where
  | levelNone
  | levelPublish
  | levelFull
deriving DecidableEq

def Rights.toNat : Rights → Nat
  | .levelNone => 0
  | .levelPublish => 1
  | .levelFull => 2

/-- Modelled from the spec: the derived order on `Rights` used by
`rights(...) < Rights::Publish` in `krate.rs`. -/
def rightsLt (a b : Rights) : Bool :=
  decide (a.toNat < b.toNat)

/-- `add_version` body of `Crate::add_version`: duplicate version
numbers are rejected, otherwise the version list grows by one. -/
def add_version (versions : List String) (v : String) :
    Except String (List String) :=
  if versions.contains v then
    .error ("crate version is already uploaded: " ++ v)
  else
    .ok (versions ++ [v])

/-- The authorization segment of the publish handler `new` in
`krate.rs` followed by the version insert: reject when the actor's
rights are below `Publish`; then reject when the crate's stored display
name differs from the requested name; then `add_version`. -/
def publish_step (r : Rights) (storedName requestedName : String)
    (versions : List String) (v : String) : Except String (List String) :=
  if rightsLt r Rights.levelPublish then
    .error "crate name has already been claimed by another user"
  else if storedName ≠ requestedName then
    .error ("crate was previously named " ++ storedName)
  else
    add_version versions v

/-- The rights gate at the top of `modify_owners` in `krate.rs`:
`Full` proceeds; `Publish` and `None` are rejected, whatever the
requested modification is. -/
def modify_owners_gate (r : Rights) : Except String Unit :=
  match r with
  | .levelFull => .ok ()
  | .levelPublish =>
    .error "team members don't have permission to modify owners"
  | .levelNone =>
    .error "only owners have permission to modify owners"

/-- The add loop of `modify_owners` (`add = true`): for each login,
fail if it already names a current owner (checked against the owner
snapshot fetched before the loop), otherwise resolve it (the
`Owner::find_by_login` / team-creation logic, abstracted as `resolve`)
and run `owner_add`. -/
def add_owners_loop (ownersLogins : List String)
    (resolve : String → Except String (Int × OwnerKind)) (cid : Nat)
    (req : Int) (rows : List CrateOwner) :
    List String → Except String (List CrateOwner)
  | [] => .ok rows
  | l :: rest =>
    if ownersLogins.contains l then
      .error (l ++ " is already an owner")
    else
      match resolve l with
      | .error e => .error e
      | .ok (oid, k) =>
        add_owners_loop ownersLogins resolve cid req
          (owner_add_rows rows cid oid k req) rest

/-- The remove loop of `modify_owners` (`add = false`): for each login,
fail on self-removal, otherwise resolve it and run `owner_remove`. -/
def remove_owners_loop (userLogin : String)
    (resolve : String → Except String (Int × OwnerKind)) (cid : Nat)
    (rows : List CrateOwner) :
    List String → Except String (List CrateOwner)
  | [] => .ok rows
  | l :: rest =>
    if l = userLogin then
      .error "cannot remove yourself as an owner"
    else
      match resolve l with
      | .error _ => .error ("could not find owner with login " ++ l)
      | .ok (oid, k) =>
        remove_owners_loop userLogin resolve cid
          (owner_remove_rows rows cid oid k) rest

/-- `modify_owners` in `krate.rs`: the rights gate runs first, then the
add or remove loop depending on the endpoint. -/
def modify_owners (r : Rights) (add : Bool) (ownersLogins : List String)
    (userLogin : String)
    (resolve : String → Except String (Int × OwnerKind)) (cid : Nat)
    (req : Int) (rows : List CrateOwner) (logins : List String) :
    Except String (List CrateOwner) :=
  match modify_owners_gate r with
  | .error e => .error e
  | .ok () =>
    if add then
      add_owners_loop ownersLogins resolve cid req rows logins
    else
      remove_owners_loop userLogin resolve cid rows logins

/-- C2 counterexample: an actor with `Publish` rights (team membership)
attempting to add an owner is rejected by `modify_owners` — the gate
admits only `Full`, contradicting the claim that `Publish` suffices to
add owners. -/
theorem publish_rights_cannot_add_owner :
    modify_owners Rights.levelPublish true [] "alice"
        (fun _ => .ok (5, OwnerKind.user)) 1 2 [] ["bob"]
      = .error "team members don't have permission to modify owners" :=
  rfl

/-- C2 (amended): `modify_owners` rejects an actor whose rights are
`Publish` or `None` for both adding and removing owners; only `Full`
reaches the add / remove operation. -/
theorem modify_owners_requires_full (add : Bool)
    (ownersLogins : List String) (userLogin : String)
    (resolve : String → Except String (Int × OwnerKind)) (cid : Nat)
    (req : Int) (rows : List CrateOwner) (logins : List String) :
    modify_owners Rights.levelPublish add ownersLogins userLogin resolve
        cid req rows logins
      = .error "team members don't have permission to modify owners" ∧
    modify_owners Rights.levelNone add ownersLogins userLogin resolve
        cid req rows logins
      = .error "only owners have permission to modify owners" ∧
    modify_owners Rights.levelFull add ownersLogins userLogin resolve
        cid req rows logins
      = (if add then
          add_owners_loop ownersLogins resolve cid req rows logins
        else
          remove_owners_loop userLogin resolve cid rows logins) :=
  ⟨rfl, rfl, rfl⟩

/-- C7 counterexample: a publish request whose stored display name
("Foo") differs from the requested name ("foo"), made by an actor with
rights below `Publish`, is rejected with the claimed-by-another-user
error — not with an error naming the previously used name, because the
rights gate runs first. -/
theorem publish_name_mismatch_error_not_always_previous_name :
    publish_step Rights.levelNone "Foo" "foo" [] "1.0.0"
        = .error "crate name has already been claimed by another user" ∧
    "crate name has already been claimed by another user"
        ≠ "crate was previously named " ++ "Foo" := by
  exact ⟨rfl, by decide⟩

/-- C7 (amended): when the actor's rights are at least `Publish` and the
stored display name differs from the requested one, publish is rejected
with an error naming the previously used name and no version is
created; when the rights are below `Publish`, publish is rejected with
the claimed-by-another-user error (which takes precedence). -/
theorem publish_step_gates (r : Rights) (storedName requestedName : String)
    (versions : List String) (v : String) :
    (rightsLt r Rights.levelPublish = false → storedName ≠ requestedName →
      publish_step r storedName requestedName versions v
        = .error ("crate was previously named " ++ storedName)) ∧
    (rightsLt r Rights.levelPublish = true →
      publish_step r storedName requestedName versions v
        = .error "crate name has already been claimed by another user") := by
  constructor
  · intro hr hname
    unfold publish_step
    rw [if_neg (by rw [hr]; exact Bool.false_ne_true), if_pos hname]
  · intro hr
    unfold publish_step
    rw [if_pos hr]

/-- Witness for `publish_step_gates`: both gates observed at concrete
inputs. -/
theorem publish_step_gates_witness :
    publish_step Rights.levelFull "Foo" "foo" [] "1.0.0"
        = .error ("crate was previously named " ++ "Foo") ∧
    publish_step Rights.levelNone "foo" "foo" [] "1.0.0"
        = .error "crate name has already been claimed by another user" :=
  ⟨(publish_step_gates Rights.levelFull "Foo" "foo" [] "1.0.0").1
      (by decide) (by decide),
   (publish_step_gates Rights.levelNone "foo" "foo" [] "1.0.0").2 rfl⟩

/-- C10: when a target login already names a current owner (in the
snapshot taken before the loop), the add loop fails with the
already-an-owner error; when that login is at the head of the list the
error is raised immediately, before `owner_add` runs for it. -/
theorem add_owners_loop_rejects_existing_owner
    (ownersLogins : List String)
    (resolve : String → Except String (Int × OwnerKind)) (cid : Nat)
    (req : Int) (rows : List CrateOwner) (logins : List String)
    (l : String) (hmem : l ∈ logins)
    (hown : ownersLogins.contains l = true) :
    (∃ e, add_owners_loop ownersLogins resolve cid req rows logins
        = .error e) ∧
    (∀ (rest : List String) (rows2 : List CrateOwner),
      add_owners_loop ownersLogins resolve cid req rows2 (l :: rest)
        = .error (l ++ " is already an owner")) := by
  have hhead : ∀ (rest : List String) (rows2 : List CrateOwner),
      add_owners_loop ownersLogins resolve cid req rows2 (l :: rest)
        = .error (l ++ " is already an owner") := by
    intro rest rows2
    unfold add_owners_loop
    rw [if_pos hown]
  refine ⟨?_, hhead⟩
  induction logins generalizing rows with
  | nil => exact absurd hmem (List.not_mem_nil l)
  | cons l0 rest ih =>
    rcases List.mem_cons.mp hmem with heq | hrest
    · subst heq
      exact ⟨l ++ " is already an owner", hhead rest rows⟩
    · by_cases h0 : ownersLogins.contains l0 = true
      · refine ⟨l0 ++ " is already an owner", ?_⟩
        unfold add_owners_loop
        rw [if_pos h0]
      · unfold add_owners_loop
        rw [if_neg h0]
        cases hres : resolve l0 with
        | error e => exact ⟨e, rfl⟩
        | ok p =>
          obtain ⟨oid, k⟩ := p
          exact ih (owner_add_rows rows cid oid k req) hrest

/-- Witness for `add_owners_loop_rejects_existing_owner` at a concrete
snapshot and login list. -/
theorem add_owners_loop_rejects_existing_owner_witness :
    ∃ e, add_owners_loop ["alice"] (fun _ => .ok (5, OwnerKind.user))
        1 2 [] ["alice"] = .error e :=
  (add_owners_loop_rejects_existing_owner ["alice"]
      (fun _ => .ok (5, OwnerKind.user)) 1 2 [] ["alice"] "alice"
      (List.mem_singleton.mpr rfl) (by decide)).1

/-- A crate as seen by the listing query: display name, download count,
the black-box text-search rank `ts_rank_cd` for the current query, and
whether `plainto_tsquery(q) @@ textsearchable_index_col` matches. -/
structure SearchCrate where
  name : String
  downloads : Int
  rank : Int
  textMatch : Bool
deriving DecidableEq

/-- The ORDER BY installed by `index` when a `q` parameter is present:
`(crates::name.eq(q_string).desc(), ...)` — primary key exact-name
match (true first), secondary key downloads descending when
`sort=downloads`, text rank descending otherwise.  `searchLe a b` says
`a` may come before `b`. -/
def searchLe (sortDownloads : Bool) (q : String) (a b : SearchCrate) :
    Bool :=
  if decide (a.name = q) = decide (b.name = q) then
    if sortDownloads then decide (b.downloads ≤ a.downloads)
    else decide (b.rank ≤ a.rank)
  else
    decide (a.name = q)

/-- The `GET /crates` query with a free-text `q`: filter by text match,
order by `searchLe`, then apply offset and limit (the page). -/
def indexPage (sortDownloads : Bool) (q : String) (offset limit : Nat)
    (crates : List SearchCrate) : List SearchCrate :=
  ((List.insertionSort (fun a b => searchLe sortDownloads q a b = true)
      (crates.filter (fun c => c.textMatch))).drop offset).take limit

lemma searchLe_total (sd : Bool) (q : String) (a b : SearchCrate) :
    searchLe sd q a b = true ∨ searchLe sd q b a = true := by
  unfold searchLe
  by_cases h : decide (a.name = q) = decide (b.name = q)
  · rw [if_pos h, if_pos h.symm]
    cases sd <;> simp only [if_true, if_false, Bool.false_eq_true,
      decide_eq_true_eq] <;> omega
  · rw [if_neg h, if_neg (fun hh => h hh.symm)]
    cases hpa : decide (a.name = q) <;> cases hpb : decide (b.name = q) <;>
      simp_all

lemma searchLe_trans (sd : Bool) (q : String) (a b c : SearchCrate)
    (hab : searchLe sd q a b = true) (hbc : searchLe sd q b c = true) :
    searchLe sd q a c = true := by
  unfold searchLe at *
  cases hpa : decide (a.name = q) <;> cases hpb : decide (b.name = q) <;>
    cases hpc : decide (c.name = q) <;>
      simp only [hpa, hpb, hpc] at hab hbc ⊢ <;>
        cases sd <;> simp_all <;> omega

/-- C4: on any page of a free-text listing request, a crate whose name
equals the query string appears before every crate whose name does not
— the exact-match key is the primary sort key, ahead of downloads or
rank, so whenever `b` (an exact match) appears after `a` on the page,
`a` is an exact match too. -/
theorem search_exact_match_first (sd : Bool) (q : String)
    (offset limit : Nat) (crates : List SearchCrate)
    (pre mid post : List SearchCrate) (a b : SearchCrate)
    (hpage : indexPage sd q offset limit crates
      = pre ++ a :: (mid ++ b :: post))
    (hb : b.name = q) : a.name = q := by
  haveI htot : IsTotal SearchCrate
      (fun x y : SearchCrate => searchLe sd q x y = true) :=
    ⟨searchLe_total sd q⟩
  haveI htrans : IsTrans SearchCrate
      (fun x y : SearchCrate => searchLe sd q x y = true) :=
    ⟨searchLe_trans sd q⟩
  have hsorted : List.Sorted
      (fun x y : SearchCrate => searchLe sd q x y = true)
      (List.insertionSort (fun x y => searchLe sd q x y = true)
        (crates.filter (fun c => c.textMatch))) :=
    List.sorted_insertionSort _ _
  have hsub : List.Sublist (indexPage sd q offset limit crates)
      (List.insertionSort (fun x y => searchLe sd q x y = true)
        (crates.filter (fun c => c.textMatch))) := by
    unfold indexPage
    exact List.Sublist.trans (List.take_sublist _ _) (List.drop_sublist _ _)
  have hpage_sorted : List.Pairwise
      (fun x y : SearchCrate => searchLe sd q x y = true)
      (pre ++ a :: (mid ++ b :: post)) := hpage ▸ hsorted.sublist hsub
  have hrab : searchLe sd q a b = true := by
    have h2 := (List.pairwise_append.mp hpage_sorted).2.1
    exact (List.pairwise_cons.mp h2).1 b
      (List.mem_append_right mid (List.mem_cons_self b post))
  by_contra hne
  rw [searchLe, decide_eq_false hne, decide_eq_true hb] at hrab
  simp at hrab

/-- Witness for `search_exact_match_first`: with `sort=downloads`, the
crate literally named `"foo"` with 2 downloads precedes the one with 1,
which precedes `"bar"` with 100 downloads. -/
theorem search_exact_match_first_witness :
    (SearchCrate.mk "foo" 2 0 true).name = "foo" :=
  search_exact_match_first true "foo" 0 10
    [SearchCrate.mk "bar" 100 9 true, SearchCrate.mk "foo" 1 0 true,
     SearchCrate.mk "foo" 2 0 true]
    [] [] [SearchCrate.mk "bar" 100 9 true]
    (SearchCrate.mk "foo" 2 0 true) (SearchCrate.mk "foo" 1 0 true)
    (by decide) (by decide)

lemma validate_preserves_name (ext : Ext) (nc : NewCrate)
    (lf : Option String) (nc' : NewCrate)
    (h : NewCrate.validate ext nc lf = .ok nc') : nc'.name = nc.name := by
  unfold NewCrate.validate at h
  repeat' split at h
  all_goals cases h
  all_goals rfl

lemma reservedClash_congr (ext : Ext) (names : List String)
    {n1 n2 : String} (h : ext.canon n1 = ext.canon n2) :
    reservedClash ext names n1 = reservedClash ext names n2 := by
  unfold reservedClash
  simp only [h]

lemma canonClash_congr (ext : Ext) (crates : List Crate)
    {n1 n2 : String} (h : ext.canon n1 = ext.canon n2) :
    canonClash ext crates n1 = canonClash ext crates n2 := by
  unfold canonClash
  simp only [h]

lemma create_or_update_insert_path (ext : Ext) (db : Db) (nc : NewCrate)
    (lf : Option String) (u : Int) (nc' : NewCrate)
    (hv : NewCrate.validate ext nc lf = .ok nc')
    (hres : reservedClash ext db.reserved_names nc'.name = false)
    (hfree : canonClash ext db.crates nc'.name = false) :
    create_or_update ext db nc lf u
      = (insertDb db nc' u, .ok (insertedCrate db nc')) := by
  have he : ensure_name_not_reserved ext db nc' = .ok () := by
    unfold ensure_name_not_reserved
    rw [if_neg (by rw [hres]; exact Bool.false_ne_true)]
  have hs : save_new_crate ext db nc' u
      = (some (insertedCrate db nc'), insertDb db nc' u) := by
    unfold save_new_crate
    rw [if_neg (by rw [hfree]; exact Bool.false_ne_true)]
  unfold create_or_update
  simp only [hv, he, hs]

lemma create_or_update_update_path (ext : Ext) (db : Db) (nc : NewCrate)
    (lf : Option String) (u : Int) (nc' : NewCrate) (c : Crate)
    (hv : NewCrate.validate ext nc lf = .ok nc')
    (hres : reservedClash ext db.reserved_names nc'.name = false)
    (hfind : db.crates.find?
        (fun c2 => ext.canon c2.name = ext.canon nc'.name) = some c) :
    create_or_update ext db nc lf u
      = ({ db with crates := db.crates.map (fun c2 =>
            if ext.canon c2.name = ext.canon nc'.name then
              applyChangeset nc' c2
            else c2) },
         .ok (applyChangeset nc' c)) := by
  have hpc := List.find?_some hfind
  have hmc := List.mem_of_find?_eq_some hfind
  have hclash : canonClash ext db.crates nc'.name = true := by
    unfold canonClash
    exact List.any_eq_true.mpr ⟨c, hmc, hpc⟩
  have he : ensure_name_not_reserved ext db nc' = .ok () := by
    unfold ensure_name_not_reserved
    rw [if_neg (by rw [hres]; exact Bool.false_ne_true)]
  have hs : save_new_crate ext db nc' u = (none, db) := by
    unfold save_new_crate
    rw [if_pos hclash]
  unfold create_or_update
  simp only [hv, he, hs, hfind]

/-- C1: a first publish (no crate with this canonical name yet)
followed by a second `create_or_update` for the same canonical name
from a different actor: the first call wins the conditional insert and
creates the single `CrateOwner` grant; the second call completes
through the fallback update and writes no owner row — afterwards the
owner table holds exactly the winner's grant. -/
theorem create_or_update_first_publish_race (ext : Ext) (db0 : Db)
    (nc1 nc2 : NewCrate) (lf1 lf2 : Option String) (A B : Int)
    (hAB : A ≠ B) (nc1' nc2' : NewCrate)
    (hv1 : NewCrate.validate ext nc1 lf1 = .ok nc1')
    (hv2 : NewCrate.validate ext nc2 lf2 = .ok nc2')
    (hcanon : ext.canon nc2.name = ext.canon nc1.name)
    (hres : reservedClash ext db0.reserved_names nc1.name = false)
    (hfree : canonClash ext db0.crates nc1.name = false) :
    ∃ k1 k2,
      (create_or_update ext db0 nc1 lf1 A).2 = .ok k1 ∧
      (create_or_update ext (create_or_update ext db0 nc1 lf1 A).1
          nc2 lf2 B).2 = .ok k2 ∧
      (create_or_update ext db0 nc1 lf1 A).1.crate_owners
        = db0.crate_owners ++ [firstOwnerRow db0 A] ∧
      (create_or_update ext (create_or_update ext db0 nc1 lf1 A).1
          nc2 lf2 B).1.crate_owners
        = db0.crate_owners ++ [firstOwnerRow db0 A] := by
  have hname1 := validate_preserves_name ext nc1 lf1 nc1' hv1
  have hname2 := validate_preserves_name ext nc2 lf2 nc2' hv2
  have hc1 : ext.canon nc1'.name = ext.canon nc1.name := by rw [hname1]
  have hc2 : ext.canon nc2'.name = ext.canon nc1.name := by
    rw [hname2, hcanon]
  have h1 := create_or_update_insert_path ext db0 nc1 lf1 A nc1' hv1
    (by rw [reservedClash_congr ext db0.reserved_names hc1]; exact hres)
    (by rw [canonClash_congr ext db0.crates hc1]; exact hfree)
  have hres2 : reservedClash ext
      (insertDb db0 nc1' A).reserved_names nc2'.name = false := by
    show reservedClash ext db0.reserved_names nc2'.name = false
    rw [reservedClash_congr ext db0.reserved_names hc2]
    exact hres
  have hfree2 : canonClash ext db0.crates nc2'.name = false := by
    rw [canonClash_congr ext db0.crates hc2]
    exact hfree
  have hfind : (insertDb db0 nc1' A).crates.find?
      (fun c2 => ext.canon c2.name = ext.canon nc2'.name)
        = some (insertedCrate db0 nc1') := by
    show (db0.crates ++ [insertedCrate db0 nc1']).find? _ = _
    rw [List.find?_append]
    have hnone : db0.crates.find?
        (fun c2 => ext.canon c2.name = ext.canon nc2'.name) = none := by
      apply List.find?_eq_none.mpr
      unfold canonClash at hfree2
      exact List.any_eq_false.mp hfree2
    rw [hnone, Option.none_or]
    have hp : decide (ext.canon (insertedCrate db0 nc1').name
        = ext.canon nc2'.name) = true := by
      apply decide_eq_true
      show ext.canon nc1'.name = ext.canon nc2'.name
      rw [hc1, hc2]
    exact List.find?_cons_of_pos ([] : List Crate) hp
  have h2 := create_or_update_update_path ext (insertDb db0 nc1' A) nc2
    lf2 B nc2' (insertedCrate db0 nc1') hv2 hres2 hfind
  refine ⟨insertedCrate db0 nc1',
    applyChangeset nc2' (insertedCrate db0 nc1'), ?_, ?_, ?_, ?_⟩
  · rw [h1]
  · rw [h1]
    show (create_or_update ext (insertDb db0 nc1' A) nc2 lf2 B).2 = _
    rw [h2]
  · rw [h1]
    rfl
  · rw [h1]
    show (create_or_update ext (insertDb db0 nc1' A) nc2 lf2 B).1.crate_owners = _
    rw [h2]
    rfl

/-- Witness for `create_or_update_first_publish_race`: two concrete
uploads of the crate name `"foo"` by users 1 and 2 on an empty
database. -/
theorem create_or_update_first_publish_race_witness :
    ∃ k1 k2,
      (create_or_update ⟨fun _ => none, fun _ => true, fun s => s⟩
          ⟨[], [], [], 0⟩
          ⟨"foo", none, none, none, none, none, none, none⟩ none 1).2
        = .ok k1 ∧
      (create_or_update ⟨fun _ => none, fun _ => true, fun s => s⟩
          (create_or_update ⟨fun _ => none, fun _ => true, fun s => s⟩
            ⟨[], [], [], 0⟩
            ⟨"foo", none, none, none, none, none, none, none⟩ none 1).1
          ⟨"foo", none, none, none, none, none, none, none⟩ none 2).2
        = .ok k2 ∧
      (create_or_update ⟨fun _ => none, fun _ => true, fun s => s⟩
          ⟨[], [], [], 0⟩
          ⟨"foo", none, none, none, none, none, none, none⟩ none 1).1.crate_owners
        = [] ++ [firstOwnerRow ⟨[], [], [], 0⟩ 1] ∧
      (create_or_update ⟨fun _ => none, fun _ => true, fun s => s⟩
          (create_or_update ⟨fun _ => none, fun _ => true, fun s => s⟩
            ⟨[], [], [], 0⟩
            ⟨"foo", none, none, none, none, none, none, none⟩ none 1).1
          ⟨"foo", none, none, none, none, none, none, none⟩ none 2).1.crate_owners
        = [] ++ [firstOwnerRow ⟨[], [], [], 0⟩ 1] :=
  create_or_update_first_publish_race
    ⟨fun _ => none, fun _ => true, fun s => s⟩ ⟨[], [], [], 0⟩
    ⟨"foo", none, none, none, none, none, none, none⟩
    ⟨"foo", none, none, none, none, none, none, none⟩ none none 1 2
    (by decide)
    ⟨"foo", none, none, none, none, none, none, none⟩
    ⟨"foo", none, none, none, none, none, none, none⟩
    rfl rfl rfl rfl rfl

/-- C6: when the canonical name matches a reserved name,
`create_or_update` rejects the request and the database is unchanged —
in particular no crate row is written. -/
theorem reserved_name_rejected (ext : Ext) (db : Db) (nc : NewCrate)
    (lf : Option String) (u : Int)
    (hres : reservedClash ext db.reserved_names nc.name = true) :
    (create_or_update ext db nc lf u).1 = db ∧
    ∃ e, (create_or_update ext db nc lf u).2 = .error e := by
  cases hv : NewCrate.validate ext nc lf with
  | error e =>
    unfold create_or_update
    rw [hv]
    exact ⟨rfl, e, rfl⟩
  | ok nc' =>
    have hname := validate_preserves_name ext nc lf nc' hv
    have hens : ensure_name_not_reserved ext db nc'
        = .error "cannot upload a crate with a reserved name" := by
      unfold ensure_name_not_reserved
      rw [hname, if_pos hres]
    unfold create_or_update
    simp only [hv, hens]
    exact ⟨trivial, _, rfl⟩

/-- Witness for `reserved_name_rejected`: uploading `"foo"` while
`"foo"` is reserved. -/
theorem reserved_name_rejected_witness :
    (create_or_update ⟨fun _ => none, fun _ => true, fun s => s⟩
        ⟨[], [], ["foo"], 0⟩
        ⟨"foo", none, none, none, none, none, none, none⟩ none 1).1
      = ⟨[], [], ["foo"], 0⟩ :=
  (reserved_name_rejected ⟨fun _ => none, fun _ => true, fun s => s⟩
      ⟨[], [], ["foo"], 0⟩
      ⟨"foo", none, none, none, none, none, none, none⟩ none 1 rfl).1

/-- C8: with no license but a license-file flag, the crate created by
`create_or_update` stores the sentinel license `"non-standard"`; with a
supplied license expression whose `/`-separated fragments all validate,
the stored license is exactly the supplied expression. -/
theorem license_field_stored (ext : Ext) (db : Db) (nc : NewCrate)
    (lf : Option String) (f : String) (u : Int)
    (hu1 : validate_url ext nc.homepage "homepage" = .ok ())
    (hu2 : validate_url ext nc.documentation "documentation" = .ok ())
    (hu3 : validate_url ext nc.repository "repository" = .ok ())
    (hres : reservedClash ext db.reserved_names nc.name = false)
    (hfree : canonClash ext db.crates nc.name = false) :
    (nc.license = none → lf = some f →
      ∃ k, (create_or_update ext db nc lf u).2 = .ok k ∧
        k.license = some "non-standard") ∧
    (∀ expr, nc.license = some expr →
      (expr.splitOn "/").all ext.validLicenseExpr = true →
      ∃ k, (create_or_update ext db nc lf u).2 = .ok k ∧
        k.license = some expr) := by
  constructor
  · intro hlic hf
    have hvl : validate_license ext nc.license lf
        = .ok (some "non-standard") := by
      rw [hlic, hf]
      rfl
    have hv : NewCrate.validate ext nc lf
        = .ok { nc with license := some "non-standard" } := by
      unfold NewCrate.validate
      rw [hu1, hu2, hu3, hvl]
    have h := create_or_update_insert_path ext db nc lf u
      { nc with license := some "non-standard" } hv hres hfree
    exact ⟨insertedCrate db { nc with license := some "non-standard" },
      by rw [h], rfl⟩
  · intro expr hlic hvalid
    have hvl : validate_license ext nc.license lf = .ok (some expr) := by
      rw [hlic]
      simp only [validate_license]
      rw [if_pos hvalid]
    have hv : NewCrate.validate ext nc lf
        = .ok { nc with license := some expr } := by
      unfold NewCrate.validate
      rw [hu1, hu2, hu3, hvl]
    have h := create_or_update_insert_path ext db nc lf u
      { nc with license := some expr } hv hres hfree
    exact ⟨insertedCrate db { nc with license := some expr },
      by rw [h], rfl⟩

/-- Witness for `license_field_stored`: a crate uploaded with no
license but a license file stores `"non-standard"`; one uploaded with
license `"MIT/Apache-2.0"` stores it verbatim. -/
theorem license_field_stored_witness :
    (∃ k, (create_or_update ⟨fun _ => none, fun _ => true, fun s => s⟩
        ⟨[], [], [], 0⟩
        ⟨"foo", none, none, none, none, none, none, none⟩
        (some "LICENSE") 1).2 = .ok k ∧
      k.license = some "non-standard") ∧
    (∃ k, (create_or_update ⟨fun _ => none, fun _ => true, fun s => s⟩
        ⟨[], [], [], 0⟩
        ⟨"foo", none, none, none, none, none, some "MIT/Apache-2.0", none⟩
        none 1).2 = .ok k ∧
      k.license = some "MIT/Apache-2.0") :=
  ⟨(license_field_stored ⟨fun _ => none, fun _ => true, fun s => s⟩
      ⟨[], [], [], 0⟩
      ⟨"foo", none, none, none, none, none, none, none⟩
      (some "LICENSE") "LICENSE" 1 rfl rfl rfl rfl rfl).1 rfl rfl,
   (license_field_stored ⟨fun _ => none, fun _ => true, fun s => s⟩
      ⟨[], [], [], 0⟩
      ⟨"foo", none, none, none, none, none, some "MIT/Apache-2.0", none⟩
      none "x" 1 rfl rfl rfl rfl rfl).2 "MIT/Apache-2.0" rfl
     (List.all_eq_true.mpr (fun _ _ => rfl))⟩

end Registry
